import Mathlib

/-!
Verification of the Tender Triage Engine of the tender-monitoring dashboard
(`react-frontend/src/components/TenderList.tsx`).

The component's decision logic is embedded shallowly:

* the pure view/filter/sort pipeline `getFilteredTenders`, the urgency score
  `getUrgencyScore`, the tab statistics `getViewStats` and the contact-info
  normalizer `parseContactInfo` become Lean functions over a `Tender` record
  mirroring `types/index.ts`;
* `Array.prototype.sort` (required to be a stable sort by ES2019, with a
  comparator result of `NaN` coerced to `+0`) is modelled by Mathlib's stable
  `List.insertionSort` over the relation `cmp a b ≤ 0`;
* `new Date(s).getTime()` is modelled by `jsTime`, a strictly monotone
  encoding of parseable ISO `YYYY-MM-DD` dates, with `none` standing for
  `NaN` (only the sign of comparator differences is ever consumed);
* the modal / detail-fetch protocol (`openModal`, `closeModal` and the
  continuations of the awaited `apiService.getTenderDetails` call) becomes an
  explicit state machine `LoaderState` with a list of outstanding requests.
-/

namespace TenderTriage

/-- A JavaScript runtime value, as stored in the loosely typed
`detailed_info.contact_info` field and as produced by `JSON.parse`.
Numbers are kept as their source lexeme: the component never does arithmetic
on parsed JSON numbers, so only identity of the lexeme matters. -/
inductive JsVal where
  | null : JsVal
  | bool (b : Bool) : JsVal
  | num (lexeme : String) : JsVal
  | str (s : String) : JsVal
  | arr (elems : List JsVal) : JsVal
  | obj (fields : List (String × JsVal)) : JsVal

/-- The opening curly bracket character (written via its code point). -/
def lbrace : Char := Char.ofNat 123

/-- The closing curly bracket character (written via its code point). -/
def rbrace : Char := Char.ofNat 125

/-- Skip JSON whitespace. -/
def skipWs : List Char → List Char
  | [] => []
  | c :: cs => if c = ' ' ∨ c = '\t' ∨ c = '\n' ∨ c = '\r' then skipWs cs else c :: cs

/-- Value of a hexadecimal digit. -/
def hexDigit (c : Char) : Option Nat :=
  if '0' ≤ c ∧ c ≤ '9' then some (c.toNat - '0'.toNat)
  else if 'a' ≤ c ∧ c ≤ 'f' then some (c.toNat - 'a'.toNat + 10)
  else if 'A' ≤ c ∧ c ≤ 'F' then some (c.toNat - 'A'.toNat + 10)
  else none

/-- Parse the body of a JSON string literal (the opening quote has already been
consumed), decoding escape sequences; returns the string and the remaining
input. Fuel-based so the definition is kernel-reducible. -/
def parseStrLit : Nat → List Char → Option (String × List Char)
  | 0, _ => none
  | _, [] => none
  | fuel + 1, c :: cs =>
    if c = '"' then some ("", cs)
    else if c = '\\' then
      match cs with
      | [] => none
      | e :: cs2 =>
        let dec : Option (Char × List Char) :=
          if e = 'n' then some ('\n', cs2)
          else if e = 't' then some ('\t', cs2)
          else if e = 'r' then some ('\r', cs2)
          else if e = 'b' then some (Char.ofNat 8, cs2)
          else if e = 'f' then some (Char.ofNat 12, cs2)
          else if e = '"' ∨ e = '\\' ∨ e = '/' then some (e, cs2)
          else if e = 'u' then
            match cs2 with
            | h1 :: h2 :: h3 :: h4 :: cs3 =>
              match hexDigit h1, hexDigit h2, hexDigit h3, hexDigit h4 with
              | some a, some b, some c2, some d =>
                some (Char.ofNat (((a * 16 + b) * 16 + c2) * 16 + d), cs3)
              | _, _, _, _ => none
            | _ => none
          else none
        match dec with
        | some (ch, rest) =>
          match parseStrLit fuel rest with
          | some (s, rest2) => some (String.mk (ch :: s.data), rest2)
          | none => none
        | none => none
    else
      match parseStrLit fuel cs with
      | some (s, rest) => some (String.mk (c :: s.data), rest)
      | none => none

/-- Take a maximal run of decimal digits. -/
def takeDigits : List Char → List Char × List Char
  | [] => ([], [])
  | c :: cs =>
    if c.isDigit then
      let (d, r) := takeDigits cs
      (c :: d, r)
    else ([], c :: cs)

/-- Parse the exponent part of a JSON number after the `e`/`E` marker. -/
def parseExpTail (r : List Char) : Option (List Char × List Char) :=
  let (sgn, r1) :=
    match r with
    | '+' :: r2 => ([('+' : Char)], r2)
    | '-' :: r2 => ([('-' : Char)], r2)
    | _ => (([] : List Char), r)
  let (ed, r2) := takeDigits r1
  if ed.isEmpty then none else some ('e' :: (sgn ++ ed), r2)

/-- Parse a JSON number, returning its lexeme (slightly lenient about leading
zeros, which is irrelevant to the properties proved here). -/
def parseNumLex (cs : List Char) : Option (String × List Char) :=
  let (sign, cs1) :=
    match cs with
    | '-' :: r => ([('-' : Char)], r)
    | _ => (([] : List Char), cs)
  let (intPart, cs2) := takeDigits cs1
  if intPart.isEmpty then none
  else
    let fracRes : Option (List Char × List Char) :=
      match cs2 with
      | '.' :: r =>
        let (fd, r2) := takeDigits r
        if fd.isEmpty then none else some ('.' :: fd, r2)
      | _ => some ([], cs2)
    match fracRes with
    | none => none
    | some (fracPart, cs3) =>
      let expRes : Option (List Char × List Char) :=
        match cs3 with
        | 'e' :: r => parseExpTail r
        | 'E' :: r => parseExpTail r
        | _ => some ([], cs3)
      match expRes with
      | none => none
      | some (expPart, cs4) =>
        some (String.mk (sign ++ intPart ++ fracPart ++ expPart), cs4)

/-- Recursive-descent JSON value parser, fuel-based so that it is structurally
recursive (hence kernel-reducible).  After an array or object separator the
remaining elements are parsed by re-entering the parser on the rest of the
input prefixed with the opening bracket. -/
def parseVal : Nat → List Char → Option (JsVal × List Char)
  | 0, _ => none
  | fuel + 1, cs0 =>
    match skipWs cs0 with
    | [] => none
    | c :: cs =>
      if c = '"' then
        match parseStrLit (cs.length + 1) cs with
        | some (s, rest) => some (.str s, rest)
        | none => none
      else if c = '[' then
        match skipWs cs with
        | ']' :: rest => some (.arr [], rest)
        | cs2 =>
          match parseVal fuel cs2 with
          | some (v, rest) =>
            match skipWs rest with
            | ',' :: rest2 =>
              match parseVal fuel ('[' :: rest2) with
              | some (.arr vs, rest3) => some (.arr (v :: vs), rest3)
              | _ => none
            | ']' :: rest2 => some (.arr [v], rest2)
            | _ => none
          | none => none
      else if c = lbrace then
        match skipWs cs with
        | [] => none
        | d :: rest =>
          if d = rbrace then some (.obj [], rest)
          else if d = '"' then
            match parseStrLit (rest.length + 1) rest with
            | some (k, rest2) =>
              match skipWs rest2 with
              | ':' :: rest3 =>
                match parseVal fuel rest3 with
                | some (v, rest4) =>
                  match skipWs rest4 with
                  | ',' :: rest5 =>
                    match parseVal fuel (lbrace :: rest5) with
                    | some (.obj kvs, rest6) => some (.obj ((k, v) :: kvs), rest6)
                    | _ => none
                  | e :: rest5 =>
                    if e = rbrace then some (.obj [(k, v)], rest5) else none
                  | _ => none
                | none => none
              | _ => none
            | none => none
          else none
      else if c = 't' then
        match cs with
        | 'r' :: 'u' :: 'e' :: rest => some (.bool true, rest)
        | _ => none
      else if c = 'f' then
        match cs with
        | 'a' :: 'l' :: 's' :: 'e' :: rest => some (.bool false, rest)
        | _ => none
      else if c = 'n' then
        match cs with
        | 'u' :: 'l' :: 'l' :: rest => some (.null, rest)
        | _ => none
      else
        match parseNumLex (c :: cs) with
        | some (lex, rest) => some (.num lex, rest)
        | none => none

/-- Models `JSON.parse`: `none` stands for the thrown `SyntaxError`. -/
def jsonParse (s : String) : Option JsVal :=
  match parseVal (2 * s.length + 2) s.data with
  | some (v, rest) => if skipWs rest = [] then some v else none
  | none => none

/-- Is a JSON number lexeme (numerically) zero: no nonzero digit before the
exponent marker. -/
def numLexIsZero (lex : String) : Bool :=
  (lex.data.takeWhile fun c => !(c = 'e' ∨ c = 'E' : Bool)).all
    fun c => decide (c < '1' ∨ '9' < c)

/-- JavaScript truthiness of a runtime value. -/
def jsTruthy : JsVal → Bool
  | .null => false
  | .bool b => b
  | .num lex => !(numLexIsZero lex)
  | .str s => !(s = "" : Bool)
  | .arr _ => true
  | .obj _ => true

/-- `parseContactInfo` from `TenderList.tsx`: a string input is run through
`JSON.parse`, a parse failure is caught and wrapped as an object whose only
field is `organization`; any other input is returned unchanged when truthy and
replaced by the empty object otherwise (`contactInfo || ` empty object).
Total by construction: the `try`/`catch` of the source never lets the parse
error escape. -/
def parseContactInfo : Option JsVal → JsVal
  | some (.str s) =>
    match jsonParse s with
    | some v => v
    | none => .obj [("organization", .str s)]
  | some v => if jsTruthy v then v else .obj []
  | none => .obj []

/-- Numeric value of a decimal digit character. -/
def digitVal (c : Char) : Option Nat :=
  if c.isDigit then some (c.toNat - '0'.toNat) else none

/-- Models `new Date(s).getTime()` up to a strictly monotone encoding: a
parseable ISO `YYYY-MM-DD` date string is mapped to the integer
`y * 10000 + m * 100 + d` (ordered exactly like the corresponding epoch
milliseconds), and `none` models `NaN` (an unparseable date).  The component
only ever uses the sign of differences of these values. -/
def jsTime (s : String) : Option Int :=
  match s.data with
  | [y1, y2, y3, y4, h1, m1, m2, h2, d1, d2] =>
    if h1 = '-' ∧ h2 = '-' then
      match digitVal y1, digitVal y2, digitVal y3, digitVal y4,
            digitVal m1, digitVal m2, digitVal d1, digitVal d2 with
      | some a, some b, some c, some d, some e, some f, some g, some h =>
        let y := ((a * 10 + b) * 10 + c) * 10 + d
        let m := e * 10 + f
        let dd := g * 10 + h
        if 1 ≤ m ∧ m ≤ 12 ∧ 1 ≤ dd ∧ dd ≤ 31 then
          some ((y * 10000 + m * 100 + dd : Nat) : Int)
        else none
      | _, _, _, _, _, _, _, _ => none
    else none
  | _ => none

/-- `DateValidation` from `types/index.ts` (`detailed_info.date_validation`);
only the three fields consumed by the triage logic are modelled, all optional
as in the source. -/
structure DateValidation where
  deadline_status : Option String
  days_until_deadline : Option Int
  urgency_level : Option String
deriving DecidableEq

/-- `DetailedTenderInfo` from `types/index.ts`; the narrative free-text fields
that the triage logic reads are modelled, all optional.  `contact_info` is
declared as structured in the interface but arrives loosely typed at runtime
(string or object), hence `Option JsVal`. -/
structure DetailedTenderInfo where
  detailed_title : Option String
  detailed_description : Option String
  requirements : Option String
  deadline : Option String
  tender_value : Option String
  duration : Option String
  contact_info : Option JsVal
  documents_required : Option String
  evaluation_criteria : Option String
  additional_details : Option String
  date_validation : Option DateValidation

/-- `Tender` from `types/index.ts` (the fields the component reads). -/
structure Tender where
  id : Int
  title : String
  url : String
  tender_date : Option String
  description : Option String
  category : String
  page_name : Option String
  is_processed : Bool
  is_notified : Bool
  created_at : String
  detailed_info : Option DetailedTenderInfo

/-- The four view tabs (`type ViewType` in `TenderList.tsx`). -/
inductive ViewType where
  | processed : ViewType
  | all : ViewType
  | active : ViewType
  | expired : ViewType
deriving DecidableEq

/-- The four sort modes (`type SortType` in `TenderList.tsx`). -/
inductive SortType where
  | newest : SortType
  | oldest : SortType
  | deadline : SortType
  | urgent : SortType
deriving DecidableEq

/-- `t.detailed_info?.date_validation` — the nested optional access. -/
def dateValidationOf (t : Tender) : Option DateValidation :=
  match t.detailed_info with
  | none => none
  | some di => di.date_validation

/-- `dv.deadline_status || ''` — the empty-string default used before the
`includes` membership test. -/
def statusOrEmpty (dv : DateValidation) : String :=
  match dv.deadline_status with
  | none => ""
  | some s => s

/-- The `active` view predicate (`TenderList.tsx` lines 78-81): keep when there
is no date-validation data, otherwise when the deadline status is in
`['active', 'urgent']`. -/
def keepActive (t : Tender) : Bool :=
  match dateValidationOf t with
  | none => true
  | some dv => statusOrEmpty dv = "active" ∨ statusOrEmpty dv = "urgent"

/-- The `expired` view predicate (`TenderList.tsx` lines 84-87): excluded when
there is no date-validation data, otherwise kept when the deadline status is
exactly `'expired'`. -/
def keepExpired (t : Tender) : Bool :=
  match dateValidationOf t with
  | none => false
  | some dv => dv.deadline_status = some "expired"

/-- Stage 1 of `getFilteredTenders`: the view `switch`. -/
def viewFilter (selectedView : ViewType) (l : List Tender) : List Tender :=
  match selectedView with
  | .processed => l.filter fun t => t.is_processed
  | .all => l
  | .active => l.filter keepActive
  | .expired => l.filter keepExpired

/-- The free-text search predicate: case-insensitive substring match against
the title, or against the description when that is present and nonempty
(`tender.description && ...` — an empty description is falsy in JS). -/
def matchesSearch (searchTerm : String) (t : Tender) : Bool :=
  decide (searchTerm.toLower.data <:+: t.title.toLower.data) ||
    match t.description with
    | none => false
    | some d => !(d = "" : Bool) && decide (searchTerm.toLower.data <:+: d.toLower.data)

/-- `getUrgencyScore` from `TenderList.tsx` lines 131-143: the urgency level
of the nested date validation mapped to a numeric score, `0` whenever the
nesting is absent, the level is falsy, or the level is unrecognized. -/
def getUrgencyScore (t : Tender) : Int :=
  match dateValidationOf t with
  | none => 0
  | some dv =>
    match dv.urgency_level with
    | none => 0
    | some lvl =>
      if lvl = "" then 0
      else if lvl = "urgent" then 5
      else if lvl = "high" then 4
      else if lvl = "medium" then 3
      else if lvl = "low" then 2
      else if lvl = "expired" then 1
      else 0

/-- JS `||` on an optional string: an absent or empty string is falsy. -/
def jsOrElse (a b : Option String) : Option String :=
  match a with
  | some s => if s = "" then b else some s
  | none => b

/-- Is an optional string truthy (present and nonempty)? -/
def truthyStr : Option String → Bool
  | none => false
  | some s => !(s = "" : Bool)

/-- The effective deadline used by the `deadline` sort
(`a.detailed_info?.deadline || a.tender_date`), normalized so that a falsy
result (absent or empty on both sides) becomes `none`. -/
def effDeadline (t : Tender) : Option String :=
  match jsOrElse (match t.detailed_info with
                  | none => none
                  | some di => di.deadline) t.tender_date with
  | none => none
  | some s => if s = "" then none else some s

/-- The `newest` comparator: `new Date(b.created_at) - new Date(a.created_at)`;
an unparseable date makes the subtraction `NaN`, which the sort coerces
to `0`. -/
def cmpNewest (a b : Tender) : Int :=
  match jsTime b.created_at, jsTime a.created_at with
  | some x, some y => x - y
  | _, _ => 0

/-- The `oldest` comparator: `new Date(a.created_at) - new Date(b.created_at)`. -/
def cmpOldest (a b : Tender) : Int :=
  match jsTime a.created_at, jsTime b.created_at with
  | some x, some y => x - y
  | _, _ => 0

/-- The `deadline` comparator (`TenderList.tsx` lines 111-117): both effective
deadlines missing compare `0`; a missing side sorts after a present side; two
present sides compare by date difference, `NaN` (an unparseable string)
coercing to `0`. -/
def cmpDeadline (a b : Tender) : Int :=
  match effDeadline a, effDeadline b with
  | none, none => 0
  | none, some _ => 1
  | some _, none => -1
  | some sa, some sb =>
    match jsTime sa, jsTime sb with
    | some x, some y => x - y
    | _, _ => 0

/-- The `urgent` comparator: descending urgency score. -/
def cmpUrgent (a b : Tender) : Int :=
  getUrgencyScore b - getUrgencyScore a

/-- The comparator passed to `filtered.sort` for each sort mode. -/
def cmpSort : SortType → Tender → Tender → Int
  | .newest => cmpNewest
  | .oldest => cmpOldest
  | .deadline => cmpDeadline
  | .urgent => cmpUrgent

/-- Models `Array.prototype.sort cmp`: ES2019 requires a stable sort whose
comparator results are coerced `NaN → +0` (already encoded in the
comparators above); modelled as Mathlib's stable insertion sort over
`cmp a b ≤ 0`. -/
def jsSortBy (cmp : Tender → Tender → Int) (l : List Tender) : List Tender :=
  l.insertionSort fun a b => cmp a b ≤ 0

/-- `getFilteredTenders` from `TenderList.tsx` lines 66-126: the pure
view/search/category/sort pipeline over the tender collection, with the four
UI control values as explicit parameters.  Total by construction — malformed
date strings flow through the comparators as `NaN`, never as exceptions. -/
def getFilteredTenders (tenders : List Tender) (selectedView : ViewType)
    (searchTerm : String) (selectedCategory : String) (sortBy : SortType) :
    List Tender :=
  let step1 := viewFilter selectedView tenders
  let step2 := if searchTerm = "" then step1 else step1.filter (matchesSearch searchTerm)
  let step3 :=
    if selectedCategory = "all" then step2
    else step2.filter fun t => t.category = selectedCategory
  jsSortBy (cmpSort sortBy) step3

/-- The tab counters computed by `getViewStats` (`TenderList.tsx` lines
201-214). -/
structure ViewStats where
  processed : Nat
  all : Nat
  active : Nat
  expired : Nat
deriving DecidableEq

/-- The `active` counter predicate of `getViewStats`: unlike the `active` view
filter, a tender without date-validation data is NOT counted. -/
def statActive (t : Tender) : Bool :=
  match dateValidationOf t with
  | none => false
  | some dv => statusOrEmpty dv = "active" ∨ statusOrEmpty dv = "urgent"

/-- The `expired` counter predicate of `getViewStats`. -/
def statExpired (t : Tender) : Bool :=
  match dateValidationOf t with
  | none => false
  | some dv => dv.deadline_status = some "expired"

/-- `getViewStats` from `TenderList.tsx` lines 201-214. -/
def getViewStats (tenders : List Tender) : ViewStats where
  processed := (tenders.filter fun t => t.is_processed).length
  all := tenders.length
  active := (tenders.filter statActive).length
  expired := (tenders.filter statExpired).length

/-- The modal / detail-loader state of `TenderList.tsx`: the four `useState`
cells plus the list of outstanding `getTenderDetails` requests, each recorded
as the summary tender captured by the corresponding `openModal` call.  The
component has no error-state cell at all: a fetch failure can only be logged
and absorbed. -/
structure LoaderState where
  isModalOpen : Bool
  selectedTender : Option Tender
  detailedTender : Option Tender
  loadingDetails : Bool
  pending : List Tender

/-- The state before any interaction (`useState` initial values). -/
def initialState : LoaderState :=
  { isModalOpen := false, selectedTender := none, detailedTender := none,
    loadingDetails := false, pending := [] }

/-- The synchronous prefix of `openModal` (`TenderList.tsx` lines 219-223):
record the selection, open the modal, raise the loading flag, and issue the
detail fetch.  Note that `detailedTender` is NOT reset here. -/
def openModal (t : Tender) (s : LoaderState) : LoaderState :=
  { s with selectedTender := some t, isModalOpen := true, loadingDetails := true,
           pending := s.pending ++ [t] }

/-- `closeModal` (`TenderList.tsx` lines 235-240): reset all four cells.  The
outstanding fetches are untouched — the source installs no cancellation or
staleness guard. -/
def closeModal (s : LoaderState) : LoaderState :=
  { s with isModalOpen := false, selectedTender := none, detailedTender := none,
           loadingDetails := false }

/-- Completion of the `i`-th outstanding `getTenderDetails` request
(`TenderList.tsx` lines 224-232): on fulfillment (`result = some detailed`)
the `try` branch stores the response; on rejection (`result = none`) the
`catch` branch stores the summary tender captured at `openModal` time; the
`finally` branch clears the loading flag.  The continuation runs uncondition-
ally — it consults none of the current state. -/
def resolveDetail (s : LoaderState) (i : Nat) (result : Option Tender) : LoaderState :=
  match s.pending[i]? with
  | none => s
  | some req =>
    { s with detailedTender := some (result.getD req),
             loadingDetails := false,
             pending := s.pending.eraseIdx i }

/-! ### Specification-side definitions

The following definitions transcribe the SPEC's wording (not the source) and
are compared against the source-derived definitions above in the refinement
theorems below. -/

/-- Written from the spec's words for the `active` view: kept iff the tender
has no date-validation data, or its deadline status is `active` or `urgent`. -/
def ActiveKeptSpec (t : Tender) : Prop :=
  dateValidationOf t = none ∨
    ∃ dv, dateValidationOf t = some dv ∧
      (dv.deadline_status = some "active" ∨ dv.deadline_status = some "urgent")

/-- Written from the spec's words for the `expired` view: kept iff the tender
has date-validation data whose deadline status equals `expired`. -/
def ExpiredKeptSpec (t : Tender) : Prop :=
  ∃ dv, dateValidationOf t = some dv ∧ dv.deadline_status = some "expired"

/-- Written from the spec's words for the urgency score: urgent 5, high 4,
medium 3, low 2, expired 1, and 0 when the date validation or the urgency
level is missing or unrecognized. -/
def urgencyScoreSpec (t : Tender) : Int :=
  match dateValidationOf t with
  | none => 0
  | some dv =>
    match dv.urgency_level with
    | none => 0
    | some lvl =>
      if lvl = "urgent" then 5
      else if lvl = "high" then 4
      else if lvl = "medium" then 3
      else if lvl = "low" then 2
      else if lvl = "expired" then 1
      else 0

/-- Written from the spec's words for the effective deadline: the
`detailed_info.deadline` when present (present meaning a truthy, i.e.
nonempty, string — the source's `||`), and `tender_date` otherwise. -/
def effDeadlineSpec (t : Tender) : Option String :=
  let dl : Option String :=
    match t.detailed_info with
    | none => none
    | some di => di.deadline
  if truthyStr dl then dl
  else if truthyStr t.tender_date then t.tender_date else none

/-! ### Sample data used by concrete scenarios and witnesses -/

/-- A summary tender with the given id, creation date and detail record. -/
def mkTender (i : Int) (created : String) (di : Option DetailedTenderInfo) : Tender :=
  { id := i, title := "Tender", url := "https://example.com", tender_date := none,
    description := none, category := "esg", page_name := none, is_processed := true,
    is_notified := false, created_at := created, detailed_info := di }

/-- A detail record with the given deadline and date validation. -/
def mkInfo (dl : Option String) (dv : Option DateValidation) : DetailedTenderInfo :=
  { detailed_title := none, detailed_description := none, requirements := none,
    deadline := dl, tender_value := none, duration := none, contact_info := none,
    documents_required := none, evaluation_criteria := none, additional_details := none,
    date_validation := dv }

/-- A date validation carrying only an urgency level. -/
def mkUrgency (lvl : String) : DateValidation :=
  { deadline_status := none, days_until_deadline := none, urgency_level := some lvl }

/-- Scenario tender with urgency level `low`. -/
def tenderLow : Tender := mkTender 1 "2024-01-01" (some (mkInfo none (some (mkUrgency "low"))))

/-- Scenario tender with urgency level `urgent`. -/
def tenderUrgent : Tender := mkTender 2 "2024-01-01" (some (mkInfo none (some (mkUrgency "urgent"))))

/-- Scenario tender with urgency level `expired`. -/
def tenderExpiredLvl : Tender := mkTender 3 "2024-01-01" (some (mkInfo none (some (mkUrgency "expired"))))

/-- Scenario tender with no date-validation data at all. -/
def tenderNoInfo : Tender := mkTender 4 "2024-01-01" none

/-- A tender whose detail deadline is a malformed (unparseable) date string. -/
def tenderBadDate : Tender := mkTender 10 "2024-01-01" (some (mkInfo (some "garbage") none))

/-- A tender whose detail deadline is a parseable date. -/
def tenderGoodDate : Tender := mkTender 11 "2024-01-01" (some (mkInfo (some "2024-01-02") none))

/-- A tender with no deadline field anywhere. -/
def tenderNoDate : Tender := mkTender 12 "2024-01-01" none

/-- A tender whose effective deadline comes from `detailed_info.deadline`. -/
def tenderFieldDeadline : Tender :=
  mkTender 20 "2024-01-01" (some (mkInfo (some "2024-03-05") none))

/-- A tender whose effective deadline comes from `tender_date` only. -/
def tenderDateOnly : Tender :=
  { mkTender 21 "2024-01-01" none with tender_date := some "2024-02-01" }

/-- A detail payload distinct from every summary tender above. -/
def detailPayloadA : Tender := mkTender 30 "2024-01-01" none

/-- A second, distinct detail payload. -/
def detailPayloadB : Tender := mkTender 31 "2024-01-01" none

/-! ### Helper lemmas -/

/-- The view stage of the pipeline is a `filter` for each view. -/
def viewKeep (v : ViewType) : Tender → Bool :=
  match v with
  | .processed => fun t => t.is_processed
  | .all => fun _ => true
  | .active => keepActive
  | .expired => keepExpired

theorem viewFilter_eq_filter (v : ViewType) (l : List Tender) :
    viewFilter v l = l.filter (viewKeep v) := by
  cases v <;> simp [viewFilter, viewKeep]

/-- Inserting into a list that never places a `¬ P` element before a `P`
element preserves that shape, provided the insertion relation always holds
into a `¬ P` element and never from a `¬ P` element into a `P` element. -/
theorem pairwise_orderedInsert_partition {α : Type} (r : α → α → Prop)
    [DecidableRel r] (P : α → Prop)
    (h1 : ∀ x y, ¬ P x → P y → ¬ r x y) (h2 : ∀ x y, ¬ P y → r x y)
    (a : α) :
    ∀ l : List α, l.Pairwise (fun x y => P y → P x) →
      (l.orderedInsert r a).Pairwise (fun x y => P y → P x) := by
  intro l
  induction l with
  | nil => intro _; simp
  | cons b l ih =>
    intro hp
    rw [List.pairwise_cons] at hp
    obtain ⟨hb, hl⟩ := hp
    by_cases hr : r a b
    · simp only [List.orderedInsert]
      rw [if_pos hr]
      refine List.pairwise_cons.mpr ⟨?_, List.pairwise_cons.mpr ⟨hb, hl⟩⟩
      intro y hy hPy
      by_cases hPa : P a
      · exact hPa
      · exfalso
        have hnb : ¬ P b := fun hPb => h1 a b hPa hPb hr
        rcases List.mem_cons.mp hy with rfl | hyl
        · exact hnb hPy
        · exact hnb (hb y hyl hPy)
    · simp only [List.orderedInsert]
      rw [if_neg hr]
      refine List.pairwise_cons.mpr ⟨?_, ih hl⟩
      intro y hy hPy
      rcases (List.mem_orderedInsert r).mp hy with rfl | hyl
      · by_contra hPb
        exact hr (h2 _ _ hPb)
      · exact hb y hyl hPy

/-- Stable insertion sort with such a relation keeps every `¬ P` element after
every `P` element. -/
theorem pairwise_insertionSort_partition {α : Type} (r : α → α → Prop)
    [DecidableRel r] (P : α → Prop)
    (h1 : ∀ x y, ¬ P x → P y → ¬ r x y) (h2 : ∀ x y, ¬ P y → r x y) :
    ∀ l : List α, (l.insertionSort r).Pairwise (fun x y => P y → P x) := by
  intro l
  induction l with
  | nil => simp
  | cons a l ih =>
    exact pairwise_orderedInsert_partition r P h1 h2 a _ ih

/-- Strict count comparison between two filters when the first implies the
second pointwise and some member separates them. -/
theorem length_filter_lt_length_filter {α : Type} (p q : α → Bool)
    (l : List α) (hpq : ∀ x, p x = true → q x = true)
    (t : α) (ht : t ∈ l) (hqt : q t = true) (hpt : ¬ p t = true) :
    (l.filter p).length < (l.filter q).length := by
  have h1 : l.filter p = (l.filter q).filter p := by
    rw [List.filter_filter]
    apply List.filter_congr
    intro x _
    by_cases hx : p x = true
    · simp [hx, hpq x hx]
    · simp [hx]
  rw [h1]
  apply List.length_filter_lt_length_iff_exists.mpr
  exact ⟨t, List.mem_filter.mpr ⟨ht, hqt⟩, hpt⟩

/-! ### Claims -/

/-- C3: the view-selection stage keeps a tender under the `active` view iff it
has no date-validation data or its deadline status is `active` or `urgent`,
and under the `expired` view iff it has date-validation data whose deadline
status equals `expired` (a tender without such data is excluded). -/
theorem active_expired_view_predicates :
    ∀ (l : List Tender) (t : Tender),
      (t ∈ viewFilter .active l ↔ t ∈ l ∧ ActiveKeptSpec t) ∧
      (t ∈ viewFilter .expired l ↔ t ∈ l ∧ ExpiredKeptSpec t) := by
  have hA : ∀ t : Tender, keepActive t = true ↔ ActiveKeptSpec t := by
    intro t
    unfold keepActive ActiveKeptSpec
    cases h : dateValidationOf t with
    | none => simp
    | some dv =>
      cases hs : dv.deadline_status with
      | none => simp [statusOrEmpty, hs]
      | some s => simp [statusOrEmpty, hs]
  have hE : ∀ t : Tender, keepExpired t = true ↔ ExpiredKeptSpec t := by
    intro t
    unfold keepExpired ExpiredKeptSpec
    cases h : dateValidationOf t with
    | none => simp
    | some dv => simp
  intro l t
  constructor
  · rw [show viewFilter .active l = l.filter keepActive from rfl, List.mem_filter]
    exact and_congr_right fun _ => hA t
  · rw [show viewFilter .expired l = l.filter keepExpired from rfl, List.mem_filter]
    exact and_congr_right fun _ => hE t

/-- C5: the urgency score is exactly the spec's fixed mapping (urgent 5,
high 4, medium 3, low 2, expired 1, and 0 when the validation data or level is
missing or unrecognized); the `urgent` sort orders the derived list by this
score descending; and Scenario E (levels low, urgent, expired, none) comes out
urgent, low, expired, none. -/
theorem urgency_score_and_descending_sort :
    (∀ t : Tender, getUrgencyScore t = urgencyScoreSpec t) ∧
    (∀ (l : List Tender) (v : ViewType) (s c : String),
      (getFilteredTenders l v s c .urgent).Pairwise
        fun a b => getUrgencyScore b ≤ getUrgencyScore a) ∧
    getFilteredTenders [tenderLow, tenderUrgent, tenderExpiredLvl, tenderNoInfo]
        .all "" "all" .urgent
      = [tenderUrgent, tenderLow, tenderExpiredLvl, tenderNoInfo] := by
  refine ⟨?_, ?_, by rfl⟩
  · intro t
    unfold getUrgencyScore urgencyScoreSpec
    cases hdv : dateValidationOf t with
    | none => simp
    | some dv =>
      cases hu : dv.urgency_level with
      | none => simp [hu]
      | some lvl =>
        by_cases he : lvl = ""
        · subst he; simp [hu]
        · simp [hu, he]
  · intro l v s c
    have key : ∀ m : List Tender, (jsSortBy (cmpSort .urgent) m).Pairwise
        fun a b => getUrgencyScore b ≤ getUrgencyScore a := by
      intro m
      haveI : IsTotal Tender (fun a b => cmpSort .urgent a b ≤ 0) :=
        ⟨by intro a b; simp [cmpSort, cmpUrgent]; omega⟩
      haveI : IsTrans Tender (fun a b => cmpSort .urgent a b ≤ 0) :=
        ⟨by intro a b c h1 h2; simp [cmpSort, cmpUrgent] at h1 h2 ⊢; omega⟩
      have hs := List.sorted_insertionSort (fun a b => cmpSort .urgent a b ≤ 0) m
      exact List.Pairwise.imp
        (by intro a b h; simp [cmpSort, cmpUrgent] at h; omega) hs
    exact key _

/-- C7: the contact-info normalizer is total (the source catches the parse
error); an absent input yields the empty structure, and a string input that
does not parse as JSON yields a structure whose only field is `organization`,
holding the raw string. -/
theorem contact_info_normalizer_fallback :
    parseContactInfo none = .obj [] ∧
    ∀ s : String, jsonParse s = none →
      parseContactInfo (some (.str s)) = .obj [("organization", .str s)] := by
  refine ⟨rfl, ?_⟩
  intro s h
  simp [parseContactInfo, h]

/-- Witness for C7 at the non-JSON string of Scenario D. -/
theorem contact_info_normalizer_fallback_witness :
    jsonParse "Ministry of Finance" = none ∧
    parseContactInfo (some (.str "Ministry of Finance"))
      = .obj [("organization", .str "Ministry of Finance")] :=
  ⟨rfl, contact_info_normalizer_fallback.2 "Ministry of Finance" rfl⟩

/-- C8: selecting a tender opens the modal in the loading state with the
summary recorded; when that fetch rejects, the catch branch stores the
originally-known summary tender as the displayed record and the finally
branch clears the loading flag, with the modal still open.  The loader state
has no error field at all, so a rejection cannot escalate to a blocking error
state. -/
theorem detail_fetch_failure_falls_back (s : LoaderState) (t : Tender) :
    (openModal t s).isModalOpen = true ∧
    (openModal t s).selectedTender = some t ∧
    (openModal t s).loadingDetails = true ∧
    (resolveDetail (openModal t s) s.pending.length none).detailedTender = some t ∧
    (resolveDetail (openModal t s) s.pending.length none).loadingDetails = false ∧
    (resolveDetail (openModal t s) s.pending.length none).isModalOpen = true ∧
    (resolveDetail (openModal t s) s.pending.length none).selectedTender = some t := by
  have hget : (openModal t s).pending[s.pending.length]? = some t := by
    simp [openModal]
  refine ⟨rfl, rfl, rfl, ?_, ?_, ?_, ?_⟩ <;> simp [resolveDetail, hget, openModal]

/-- C10: `getViewStats` counts as active only tenders that have
date-validation data with status in active/urgent, while the `active` view
also keeps every tender lacking such data; hence when at least one tender has
no date-validation data, the Active tab count is strictly smaller than the
number of tenders shown by the active view (empty search, category `all`),
under every sort mode. -/
theorem active_count_lt_active_view (l : List Tender) (sb : SortType)
    (h : ∃ t ∈ l, dateValidationOf t = none) :
    (getViewStats l).active <
      (getFilteredTenders l .active "" "all" sb).length := by
  obtain ⟨t, htl, htdv⟩ := h
  have hlen : (getFilteredTenders l .active "" "all" sb).length
      = (l.filter keepActive).length := by
    unfold getFilteredTenders jsSortBy
    simp [List.length_insertionSort, viewFilter]
  rw [hlen]
  show (l.filter statActive).length < (l.filter keepActive).length
  refine length_filter_lt_length_filter statActive keepActive l ?_ t htl ?_ ?_
  · intro x hx
    unfold statActive at hx
    unfold keepActive
    cases hdv : dateValidationOf x with
    | none => rfl
    | some dv => rw [hdv] at hx; exact hx
  · unfold keepActive; rw [htdv]
  · unfold statActive; rw [htdv]; simp

/-- Witness for C10 on a two-tender collection, one lacking
date-validation data. -/
theorem active_count_lt_active_view_witness :
    (∃ t ∈ [tenderNoInfo, tenderUrgent], dateValidationOf t = none) ∧
    (getViewStats [tenderNoInfo, tenderUrgent]).active <
      (getFilteredTenders [tenderNoInfo, tenderUrgent] .active "" "all" .newest).length :=
  ⟨⟨tenderNoInfo, by simp, rfl⟩,
    active_count_lt_active_view [tenderNoInfo, tenderUrgent] .newest
      ⟨tenderNoInfo, by simp, rfl⟩⟩

/-- C1 counterexample: open a modal, close it, then let the detail response
arrive.  The response still mutates the dismissed view's state — the
displayed record is overwritten with the stale payload instead of staying
reset — because the source installs no staleness guard. -/
theorem stale_response_mutates_closed_state :
    (resolveDetail (closeModal (openModal tenderBadDate initialState)) 0
        (some detailPayloadA)).detailedTender = some detailPayloadA ∧
    (closeModal (openModal tenderBadDate initialState)).detailedTender = none ∧
    resolveDetail (closeModal (openModal tenderBadDate initialState)) 0
        (some detailPayloadA)
      ≠ closeModal (openModal tenderBadDate initialState) := by
  refine ⟨rfl, rfl, ?_⟩
  intro h
  exact Option.noConfusion (congrArg LoaderState.detailedTender h)

/-- C1 amended: a response arriving after `closeModal` never reopens the
modal (`isModalOpen` stays `false`) and leaves the cleared selection in
place, but it does mutate the dismissed view's record state: `detailedTender`
is overwritten with the response payload (or the captured summary on
rejection) and `loadingDetails` is set to `false` again. -/
theorem late_response_never_reopens (s : LoaderState) (i : Nat)
    (res : Option Tender) (hi : i < s.pending.length)
    (hclosed : s.isModalOpen = false) :
    (resolveDetail s i res).isModalOpen = false ∧
    (resolveDetail s i res).selectedTender = s.selectedTender ∧
    (resolveDetail s i res).detailedTender = some (res.getD s.pending[i]) ∧
    (resolveDetail s i res).loadingDetails = false := by
  have hget : s.pending[i]? = some s.pending[i] := List.getElem?_eq_getElem hi
  refine ⟨?_, ?_, ?_, ?_⟩ <;> simp [resolveDetail, hget, hclosed]

/-- Witness for amended C1 on the concrete closed-modal trace. -/
theorem late_response_never_reopens_witness :
    (closeModal (openModal tenderBadDate initialState)).isModalOpen = false ∧
    0 < (closeModal (openModal tenderBadDate initialState)).pending.length ∧
    (resolveDetail (closeModal (openModal tenderBadDate initialState)) 0
        (some detailPayloadA)).isModalOpen = false :=
  ⟨rfl, by decide,
    (late_response_never_reopens (closeModal (openModal tenderBadDate initialState))
      0 (some detailPayloadA) (by decide) rfl).1⟩

/-- C2 counterexample: select one tender, then a second while the first fetch
is outstanding; let the second request's response arrive first and the first
request's response arrive last.  The displayed record ends up as the FIRST
(superseded) selection's payload, not the most recent selection's — the
earlier request's response does affect the view. -/
theorem earlier_response_overwrites_later_selection :
    (resolveDetail (resolveDetail (openModal tenderUrgent (openModal tenderLow
        initialState)) 1 (some detailPayloadB)) 0 (some detailPayloadA)).selectedTender
      = some tenderUrgent ∧
    (resolveDetail (resolveDetail (openModal tenderUrgent (openModal tenderLow
        initialState)) 1 (some detailPayloadB)) 0 (some detailPayloadA)).detailedTender
      = some detailPayloadA ∧
    detailPayloadA.id ≠ detailPayloadB.id ∧
    (resolveDetail (resolveDetail (openModal tenderUrgent (openModal tenderLow
        initialState)) 1 (some detailPayloadB)) 0 (some detailPayloadA)).detailedTender
      ≠ some detailPayloadB := by
  refine ⟨rfl, rfl, by decide, ?_⟩
  intro h
  have h2 : some detailPayloadA = some detailPayloadB := h
  have h3 := congrArg Tender.id (Option.some.inj h2)
  exact absurd h3 (by decide)

/-- C2 amended: every arrival of a detail response overwrites the displayed
record with its own payload and clears the loading flag, regardless of which
selection issued the request and of the current state — so the record
ultimately displayed is the one carried by the response that arrives LAST
(last-response-wins), not the most recent selection's. -/
theorem arrival_always_overwrites_display (s : LoaderState) (i : Nat)
    (res : Option Tender) (hi : i < s.pending.length) :
    (resolveDetail s i res).detailedTender = some (res.getD s.pending[i]) ∧
    (resolveDetail s i res).loadingDetails = false ∧
    (resolveDetail s i res).selectedTender = s.selectedTender ∧
    (resolveDetail s i res).pending = s.pending.eraseIdx i := by
  have hget : s.pending[i]? = some s.pending[i] := List.getElem?_eq_getElem hi
  refine ⟨?_, ?_, ?_, ?_⟩ <;> simp [resolveDetail, hget]

/-- Witness for amended C2 on the double-selection trace. -/
theorem arrival_always_overwrites_display_witness :
    0 < (openModal tenderUrgent (openModal tenderLow initialState)).pending.length ∧
    (resolveDetail (openModal tenderUrgent (openModal tenderLow initialState)) 0
        (some detailPayloadA)).detailedTender = some detailPayloadA :=
  ⟨by decide,
    (arrival_always_overwrites_display
      (openModal tenderUrgent (openModal tenderLow initialState)) 0
      (some detailPayloadA) (by decide)).1⟩

/-- C4 counterexample: under the `deadline` sort, a tender whose deadline
string is malformed does NOT sort to the end the way a tender with no
deadline does — it keeps its input position (here: first), while a genuinely
deadline-less tender is sent after the dated one. -/
theorem malformed_date_keeps_position :
    getFilteredTenders [tenderBadDate, tenderGoodDate] .all "" "all" .deadline
      = [tenderBadDate, tenderGoodDate] ∧
    getFilteredTenders [tenderNoDate, tenderGoodDate] .all "" "all" .deadline
      = [tenderGoodDate, tenderNoDate] ∧
    tenderBadDate.id ≠ tenderGoodDate.id :=
  ⟨rfl, rfl, by decide⟩

/-- C4 amended: the pipeline is total (malformed dates flow through as `NaN`,
never as exceptions), but a malformed non-empty date string is NOT treated as
an absent date: the tender still counts as having an effective deadline (so
it sorts before deadline-less tenders, comparator `-1`), and against any
other tender with an effective deadline the `NaN` difference is coerced to
`0`, so the stable sort leaves the tender in its relative input position
instead of sending it to the end. -/
theorem malformed_date_comparator :
    (∀ (a b : Tender) (sa sb : String), effDeadline a = some sa →
      jsTime sa = none → effDeadline b = some sb →
      cmpDeadline a b = 0 ∧ cmpDeadline b a = 0) ∧
    (∀ (a b : Tender) (sa : String), effDeadline a = some sa →
      jsTime sa = none → effDeadline b = none →
      cmpDeadline a b = -1 ∧ cmpDeadline b a = 1) := by
  constructor
  · intro a b sa sb ha hta hb
    constructor
    · simp [cmpDeadline, ha, hb, hta]
    · simp only [cmpDeadline, ha, hb, hta]
      cases jsTime sb <;> simp [hta]
  · intro a b sa ha hta hb
    exact ⟨by simp [cmpDeadline, ha, hb], by simp [cmpDeadline, ha, hb]⟩

/-- Witness for amended C4 at the malformed/parseable/absent sample tenders. -/
theorem malformed_date_comparator_witness :
    effDeadline tenderBadDate = some "garbage" ∧ jsTime "garbage" = none ∧
    effDeadline tenderGoodDate = some "2024-01-02" ∧
    effDeadline tenderNoDate = none ∧
    cmpDeadline tenderBadDate tenderGoodDate = 0 ∧
    cmpDeadline tenderBadDate tenderNoDate = -1 :=
  ⟨rfl, rfl, rfl, rfl,
    (malformed_date_comparator.1 tenderBadDate tenderGoodDate "garbage"
      "2024-01-02" rfl rfl rfl).1,
    (malformed_date_comparator.2 tenderBadDate tenderNoDate "garbage"
      rfl rfl rfl).1⟩

/-- C6: under the `deadline` sort the key is the effective deadline —
`detailed_info.deadline` when present (truthy), else `tender_date`; pairwise,
a tender with an effective deadline sorts before one without; two parseable
effective deadlines compare purely by their dates regardless of which field
supplied them; and in the derived output no deadline-less tender ever
precedes a tender that has an effective deadline. -/
theorem deadline_sort_key_and_order :
    (∀ t : Tender, effDeadline t = effDeadlineSpec t) ∧
    (∀ a b : Tender, (effDeadline a).isSome = true → effDeadline b = none →
      cmpDeadline a b = -1 ∧ cmpDeadline b a = 1) ∧
    (∀ (a b : Tender) (sa sb : String) (x y : Int),
      effDeadline a = some sa → effDeadline b = some sb →
      jsTime sa = some x → jsTime sb = some y →
      cmpDeadline a b = x - y ∧ cmpDeadline b a = y - x) ∧
    (∀ (l : List Tender) (v : ViewType) (s c : String),
      (getFilteredTenders l v s c .deadline).Pairwise
        fun x y => (effDeadline y).isSome = true → (effDeadline x).isSome = true) := by
  refine ⟨?_, ?_, ?_, ?_⟩
  · intro t
    unfold effDeadline effDeadlineSpec jsOrElse truthyStr
    cases hdi : t.detailed_info with
    | none =>
      cases htd : t.tender_date with
      | none => simp
      | some td => by_cases h : td = "" <;> simp [h]
    | some di =>
      cases hdl : di.deadline with
      | none =>
        cases htd : t.tender_date with
        | none => simp [hdl]
        | some td => by_cases h : td = "" <;> simp [hdl, h]
      | some dl =>
        by_cases h : dl = ""
        · subst h
          cases htd : t.tender_date with
          | none => simp [hdl]
          | some td => by_cases h2 : td = "" <;> simp [hdl, h2]
        · simp [hdl, h]
  · intro a b hsa hb
    obtain ⟨sa, ha⟩ := Option.isSome_iff_exists.mp hsa
    exact ⟨by simp [cmpDeadline, ha, hb], by simp [cmpDeadline, ha, hb]⟩
  · intro a b sa sb x y ha hb hx hy
    exact ⟨by simp [cmpDeadline, ha, hb, hx, hy],
      by simp [cmpDeadline, ha, hb, hx, hy]⟩
  · intro l v s c
    have key : ∀ m : List Tender, (jsSortBy (cmpSort .deadline) m).Pairwise
        fun x y => (effDeadline y).isSome = true → (effDeadline x).isSome = true := by
      intro m
      apply pairwise_insertionSort_partition
        (fun a b => cmpSort .deadline a b ≤ 0)
        (fun t => (effDeadline t).isSome = true)
      · intro x y hx hy
        obtain ⟨sy, hys⟩ := Option.isSome_iff_exists.mp hy
        cases hxe : effDeadline x with
        | some sx => rw [hxe] at hx; simp at hx
        | none => simp [cmpSort, cmpDeadline, hxe, hys]
      · intro x y hy
        cases hye : effDeadline y with
        | some sy => rw [hye] at hy; simp at hy
        | none => cases hxs : effDeadline x <;> simp [cmpSort, cmpDeadline, hxs, hye]
    exact key _

/-- Witness for C6 at concrete tenders: one with a detail deadline, one with
only a publication date, one with neither. -/
theorem deadline_sort_key_witness :
    (effDeadline tenderFieldDeadline).isSome = true ∧
    effDeadline tenderDateOnly = some "2024-02-01" ∧
    effDeadline tenderNoDate = none ∧
    jsTime "2024-03-05" = some 20240305 ∧ jsTime "2024-02-01" = some 20240201 ∧
    cmpDeadline tenderFieldDeadline tenderNoDate = -1 ∧
    cmpDeadline tenderFieldDeadline tenderDateOnly = 20240305 - 20240201 :=
  ⟨rfl, rfl, rfl, rfl, rfl,
    (deadline_sort_key_and_order.2.1 tenderFieldDeadline tenderNoDate rfl rfl).1,
    (deadline_sort_key_and_order.2.2.1 tenderFieldDeadline tenderDateOnly
      "2024-03-05" "2024-02-01" 20240305 20240201 rfl rfl rfl rfl).1⟩

/-- C9: the pipeline is a pure function, so repeated derivations from the same
input are identical by definition; and any two tenders whose sort keys
compare equal (comparator `0`) and which survive the filters appear in the
derived output in their input order — the stable insertion-sort model
preserves every comparator-nonpositive pair. -/
theorem equal_keys_preserve_input_order
    (l : List Tender) (v : ViewType) (s c : String) (sb : SortType)
    (a b : Tender) (hsub : List.Sublist [a, b] l) (hcmp : cmpSort sb a b = 0)
    (hva : viewKeep v a = true) (hvb : viewKeep v b = true)
    (hs : s = "" ∨ (matchesSearch s a = true ∧ matchesSearch s b = true))
    (hc : c = "all" ∨ (a.category = c ∧ b.category = c)) :
    List.Sublist [a, b] (getFilteredTenders l v s c sb) := by
  have h1 : List.Sublist [a, b] (viewFilter v l) := by
    rw [viewFilter_eq_filter]
    have h := hsub.filter (viewKeep v)
    simpa [hva, hvb] using h
  have h2 : List.Sublist [a, b]
      (if s = "" then viewFilter v l
       else (viewFilter v l).filter (matchesSearch s)) := by
    by_cases hse : s = ""
    · simpa [hse] using h1
    · rcases hs with rfl | ⟨ha, hb⟩
      · exact absurd rfl hse
      · rw [if_neg hse]
        have h := h1.filter (matchesSearch s)
        simpa [ha, hb] using h
  have h3 : List.Sublist [a, b]
      (if c = "all" then
        (if s = "" then viewFilter v l
         else (viewFilter v l).filter (matchesSearch s))
       else
        (if s = "" then viewFilter v l
         else (viewFilter v l).filter (matchesSearch s)).filter
          fun t => t.category = c) := by
    by_cases hca : c = "all"
    · simpa [hca] using h2
    · rcases hc with rfl | ⟨ha, hb⟩
      · exact absurd rfl hca
      · rw [if_neg hca]
        have h := h2.filter fun t => (t.category = c : Bool)
        simpa [ha, hb] using h
  have hr : (fun x y => cmpSort sb x y ≤ 0) a b := le_of_eq hcmp
  exact List.pair_sublist_insertionSort hr h3

/-- Witness for C9: two tenders with equal `created_at` under the `newest`
sort keep their input order. -/
theorem equal_keys_preserve_input_order_witness :
    cmpSort .newest tenderLow tenderUrgent = 0 ∧
    List.Sublist [tenderLow, tenderUrgent]
      (getFilteredTenders [tenderLow, tenderUrgent] .all "" "all" .newest) :=
  ⟨rfl,
    equal_keys_preserve_input_order [tenderLow, tenderUrgent] .all "" "all"
      .newest tenderLow tenderUrgent (List.Sublist.refl _) rfl rfl rfl
      (Or.inl rfl) (Or.inl rfl)⟩

end TenderTriage
